import Mathlib

/-!
Shallow embedding of the endpoint-dispatch core of `frr-redux`
(`src/frr/api.saga.ts`): the request builder `makeApiRequest` and the
dispatch worker `callRestApi`.  The saga's effects (`put`, `delay`,
the network call) are recorded as an explicit trace of events; the
behaviour of the external collaborators (the async token provider,
the `fetch` primitive, the 10-second timeout race) is supplied as an
oracle argument.
-/

/-- JSON values, as produced by `raw.json()`. -/
inductive Json where
  | null : Json
  | bool (b : Bool) : Json
  | num (n : Int) : Json
  | str (s : String) : Json
  | arr (elems : List Json) : Json
  | obj (fields : List (String × Json)) : Json

/-- The request/success/failure label triplet (`action.payload.types`). -/
structure ActionTypes where
  request : String
  success : String
  failure : String

/-- The `RestApiPayload` carried by a `REST_CALL` action: the fields
destructured at the top of `callRestApi`. -/
structure RestApiPayload where
  types : ActionTypes
  meta : Option Json
  endpoint : String
  body : Option String
  method : String
  delay : Option Nat
  server : Option String

/-- `SagaApiConfig`.  The async token provider `getToken` is embedded by
the outcome of its invocation for the call at hand: `none` when no
provider is configured, `some (Except.error ())` when the returned
promise rejects, `some (Except.ok t)` when it resolves to `t`
(`t = none` models resolving to `undefined`). -/
structure SagaApiConfig where
  baseUrl : String
  getToken : Option (Except Unit (Option String))
  debug : Bool

/-- The argument object of `makeApiRequest`. -/
structure ApiArgs where
  method : String
  endpoint : String
  server : Option String
  body : Option String

/-- The request handed to `fetch`: URL plus the `RequestInit` options. -/
structure HttpRequest where
  url : String
  method : String
  headers : List (String × String)
  body : Option String

/-- `endpoint.endsWith('/') ? endpoint.slice(0, endpoint.length - 1) : endpoint`:
when the last character is `'/'` it is dropped, otherwise the endpoint is
returned unchanged. -/
def stripTrailingSlash (endpoint : String) : String :=
  if endpoint.data.getLast? = some '/' then String.mk endpoint.data.dropLast
  else endpoint

/-- The URL template `${server || config.baseUrl}/api${e}`.  JavaScript's
`||` falls back to `config.baseUrl` when `server` is `undefined` or the
empty string (both are falsy). -/
def requestUrl (config : SagaApiConfig) (server : Option String)
    (endpoint : String) : String :=
  (match server with
    | some s => if s = "" then config.baseUrl else s
    | none => config.baseUrl) ++ "/api" ++ stripTrailingSlash endpoint

/-- The headers object: the spread of the optional token header followed by
the two fixed JSON headers. -/
def requestHeaders (token : Option String) : List (String × String) :=
  (match token with
    | none => []
    | some t => [("x-access-token", t)]) ++
  [("Accept", "application/json"), ("Content-Type", "application/json")]

/-- `let token = undefined; if (config.getToken) { token = await config.getToken() }`:
the token is `undefined` when no provider is configured, otherwise the
provider's outcome (a rejection propagates). -/
def tokenResult (config : SagaApiConfig) : Except Unit (Option String) :=
  match config.getToken with
  | none => Except.ok none
  | some r => r

/-- `makeApiRequest config args`: awaits the token provider (a rejection
propagates, making the returned promise reject), then builds the request
given to `fetch`.  The result is the request object; issuing it and the
response are the network oracle's business. -/
def makeApiRequest (config : SagaApiConfig) (args : ApiArgs) :
    Except Unit HttpRequest :=
  match tokenResult config with
  | Except.error e => Except.error e
  | Except.ok token =>
      Except.ok
        { url := requestUrl config args.server args.endpoint
          method := args.method
          headers := requestHeaders token
          body := args.body }

/-- One observable effect of the worker: a dispatched action (`put`),
a suspension (`sagaDelay`), or the network call being issued. -/
inductive Event where
  | put (type : String) (payload : Option Json) (meta : Option Json) : Event
  | sleep (ms : Nat) : Event
  | netCall (req : HttpRequest) : Event

/-- How the race `{ raw: makeApiRequest(...), timeout: sagaDelay(10000) }`
settles once the network call has been issued. -/
inductive FetchOutcome where
  | timeout : FetchOutcome
  | reject : FetchOutcome
  | respond (status : Nat) (body : Except Unit Json) : FetchOutcome

/-- The oracle for one invocation: whether a token-provider rejection
settles before the 10-second timeout, and how the issued fetch races the
timeout (`respond` also carries the outcome of `raw.json()`). -/
structure Env where
  tokenBeatsTimeout : Bool
  fetch : FetchOutcome

/-- The argument object `callRestApi` passes to `makeApiRequest`. -/
def argsOf (p : RestApiPayload) : ApiArgs :=
  { method := p.method, endpoint := p.endpoint
    server := p.server, body := p.body }

/-- `if (delay !== undefined) { yield sagaDelay(delay) }`: the suspension
recorded between the request action and the race. -/
def delayEventsOf (p : RestApiPayload) : List Event :=
  match p.delay with
  | none => []
  | some d => [Event.sleep d]

/-- The catch-branch action: `put({ type: types.failure, payload: {}, meta })`. -/
def emptyFailure (p : RestApiPayload) : Event :=
  Event.put p.types.failure (some (Json.obj [])) p.meta

/-- The events of the `try` block: race the call against `sagaDelay(10000)`,
return silently when the timeout wins (`if (!raw) return`), otherwise parse
the body and dispatch failure (status ≥ 400) or success; any rejection
lands in the catch block, which dispatches the empty-payload failure. -/
def raceEvents (config : SagaApiConfig) (env : Env)
    (p : RestApiPayload) : List Event :=
  match makeApiRequest config (argsOf p) with
  | Except.error _ =>
      if env.tokenBeatsTimeout then [emptyFailure p] else []
  | Except.ok req =>
      Event.netCall req ::
      match env.fetch with
      | FetchOutcome.timeout => []
      | FetchOutcome.reject => [emptyFailure p]
      | FetchOutcome.respond status body =>
          match body with
          | Except.error _ => [emptyFailure p]
          | Except.ok j =>
              if 400 ≤ status then
                [Event.put p.types.failure (some j) p.meta]
              else
                [Event.put p.types.success (some j) p.meta]

/-- The trace of the worker `callRestApi` for one `REST_CALL` action:
emit the request action, optionally suspend for `delay`, then run the
`try`/`catch` block around the race. -/
def callRestApi (config : SagaApiConfig) (env : Env)
    (p : RestApiPayload) : List Event :=
  Event.put p.types.request none p.meta ::
    (delayEventsOf p ++ raceEvents config env p)

/-- The timeout branch of the race is taken: either the token provider's
rejection does not settle within the 10 seconds, or the issued call
neither resolves nor rejects within them. -/
def timeoutWins (config : SagaApiConfig) (env : Env)
    (p : RestApiPayload) : Prop :=
  match makeApiRequest config (argsOf p) with
  | Except.error _ => env.tokenBeatsTimeout = false
  | Except.ok _ => env.fetch = FetchOutcome.timeout

/-- Some step after the request action throws before the timeout: the token
provider rejects, the network primitive rejects, or `raw.json()` fails. -/
def throwsBeforeTimeout (config : SagaApiConfig) (env : Env)
    (p : RestApiPayload) : Prop :=
  match makeApiRequest config (argsOf p) with
  | Except.error _ => env.tokenBeatsTimeout = true
  | Except.ok _ =>
      env.fetch = FetchOutcome.reject ∨
      ∃ status, env.fetch = FetchOutcome.respond status (Except.error ())

/-- A dispatched action carrying a payload: the success and failure
actions have a JSON payload, while the request action's payload is
`undefined`. -/
def Event.isTerminalPut : Event → Bool
  | Event.put _ (some _) _ => true
  | _ => false

/-- A suspension event. -/
def Event.isSleep : Event → Bool
  | Event.sleep _ => true
  | _ => false

/-! ## Structural lemmas -/

lemma mem_delayEventsOf (p : RestApiPayload) (e : Event)
    (h : e ∈ delayEventsOf p) : ∃ d, e = Event.sleep d := by
  cases hd : p.delay <;> simp [delayEventsOf, hd] at h
  exact ⟨_, h⟩

lemma raceEvents_spec (config : SagaApiConfig) (env : Env)
    (p : RestApiPayload) :
    ∃ calls terms : List Event,
      raceEvents config env p = calls ++ terms ∧
      (∀ e ∈ calls, ∃ r, e = Event.netCall r) ∧
      terms.length ≤ 1 ∧
      (∀ e ∈ terms, ∃ t j, e = Event.put t (some j) p.meta) ∧
      (terms = [] ↔ timeoutWins config env p) := by
  cases hm : makeApiRequest config (argsOf p) with
  | error err =>
      cases ht : env.tokenBeatsTimeout with
      | true =>
          refine ⟨[], [emptyFailure p], ?_, by simp, by simp, ?_, ?_⟩
          · simp [raceEvents, hm, ht]
          · intro e he
            simp at he
            exact ⟨p.types.failure, Json.obj [], by simp [he, emptyFailure]⟩
          · simp [timeoutWins, hm, ht]
      | false =>
          refine ⟨[], [], ?_, by simp, by simp, by simp, ?_⟩
          · simp [raceEvents, hm, ht]
          · simp [timeoutWins, hm, ht]
  | ok req =>
      cases hf : env.fetch with
      | timeout =>
          refine ⟨[Event.netCall req], [], ?_, by simp, by simp, by simp, ?_⟩
          · simp [raceEvents, hm, hf]
          · simp [timeoutWins, hm, hf]
      | reject =>
          refine ⟨[Event.netCall req], [emptyFailure p], ?_, by simp,
            by simp, ?_, ?_⟩
          · simp [raceEvents, hm, hf]
          · intro e he
            simp at he
            exact ⟨p.types.failure, Json.obj [], by simp [he, emptyFailure]⟩
          · simp [timeoutWins, hm, hf]
      | respond status body =>
          cases body with
          | error perr =>
              refine ⟨[Event.netCall req], [emptyFailure p], ?_, by simp,
                by simp, ?_, ?_⟩
              · simp [raceEvents, hm, hf]
              · intro e he
                simp at he
                exact ⟨p.types.failure, Json.obj [], by simp [he, emptyFailure]⟩
              · simp [timeoutWins, hm, hf]
          | ok j =>
              by_cases hs : 400 ≤ status
              · refine ⟨[Event.netCall req],
                  [Event.put p.types.failure (some j) p.meta], ?_, by simp,
                  by simp, ?_, ?_⟩
                · simp [raceEvents, hm, hf, hs]
                · intro e he
                  simp at he
                  exact ⟨p.types.failure, j, by simp [he]⟩
                · simp [timeoutWins, hm, hf]
              · refine ⟨[Event.netCall req],
                  [Event.put p.types.success (some j) p.meta], ?_, by simp,
                  by simp, ?_, ?_⟩
                · simp [raceEvents, hm, hf, hs]
                · intro e he
                  simp at he
                  exact ⟨p.types.success, j, by simp [he]⟩
                · simp [timeoutWins, hm, hf]

/-! ## Claim C1 -/

/-- C1: for every invocation handled by `callRestApi`, the trace starts
with the Request action (payload `undefined`), which therefore precedes
every network call and every terminal action; no further payload-free
action follows it (the Request action is emitted exactly once), at most
one terminal (payload-carrying) action follows it, and no terminal
action is emitted exactly when the timeout wins the race. -/
theorem c1_request_once_then_at_most_one_terminal
    (config : SagaApiConfig) (env : Env) (p : RestApiPayload) :
    ∃ rest,
      callRestApi config env p =
        Event.put p.types.request none p.meta :: rest ∧
      (∀ t m, Event.put t none m ∉ rest) ∧
      (rest.filter Event.isTerminalPut).length ≤ 1 ∧
      (rest.filter Event.isTerminalPut = [] ↔ timeoutWins config env p) := by
  obtain ⟨calls, terms, hre, hcalls, hlen, hterms, hnil⟩ :=
    raceEvents_spec config env p
  refine ⟨delayEventsOf p ++ raceEvents config env p, rfl, ?_, ?_, ?_⟩
  · intro t m hmem
    rw [hre] at hmem
    rcases List.mem_append.mp hmem with hd | hct
    · obtain ⟨d, hd'⟩ := mem_delayEventsOf p _ hd
      exact Event.noConfusion hd'
    · rcases List.mem_append.mp hct with hc | hterm
      · obtain ⟨r, hr⟩ := hcalls _ hc
        exact Event.noConfusion hr
      · obtain ⟨t', j, hj⟩ := hterms _ hterm
        obtain ⟨-, hpl, -⟩ := Event.put.inj hj
        exact Option.noConfusion hpl
  · rw [hre, List.filter_append, List.filter_append]
    have h1 : (delayEventsOf p).filter Event.isTerminalPut = [] := by
      rw [List.filter_eq_nil_iff]
      intro e he
      obtain ⟨d, hd⟩ := mem_delayEventsOf p e he
      simp [hd, Event.isTerminalPut]
    have h2 : calls.filter Event.isTerminalPut = [] := by
      rw [List.filter_eq_nil_iff]
      intro e he
      obtain ⟨r, hr⟩ := hcalls e he
      simp [hr, Event.isTerminalPut]
    have h3 : terms.filter Event.isTerminalPut = terms := by
      rw [List.filter_eq_self]
      intro e he
      obtain ⟨t, j, hj⟩ := hterms e he
      simp [hj, Event.isTerminalPut]
    rw [h1, h2, h3]
    simpa using hlen
  · rw [hre, List.filter_append, List.filter_append]
    have h1 : (delayEventsOf p).filter Event.isTerminalPut = [] := by
      rw [List.filter_eq_nil_iff]
      intro e he
      obtain ⟨d, hd⟩ := mem_delayEventsOf p e he
      simp [hd, Event.isTerminalPut]
    have h2 : calls.filter Event.isTerminalPut = [] := by
      rw [List.filter_eq_nil_iff]
      intro e he
      obtain ⟨r, hr⟩ := hcalls e he
      simp [hr, Event.isTerminalPut]
    have h3 : terms.filter Event.isTerminalPut = terms := by
      rw [List.filter_eq_self]
      intro e he
      obtain ⟨t, j, hj⟩ := hterms e he
      simp [hj, Event.isTerminalPut]
    rw [h1, h2, h3]
    simpa using hnil

/-! ## Claim C7 -/

/-- C7: every dispatched action of an invocation's trace — the Request
action and whichever terminal action is emitted, the catch-branch
Failure included — carries the `meta` of the originating payload,
unchanged. -/
theorem c7_meta_carried_unchanged
    (config : SagaApiConfig) (env : Env) (p : RestApiPayload) :
    ∀ t pl m, Event.put t pl m ∈ callRestApi config env p → m = p.meta := by
  obtain ⟨calls, terms, hre, hcalls, hlen, hterms, hnil⟩ :=
    raceEvents_spec config env p
  intro t pl m hmem
  rcases List.mem_cons.mp hmem with hhead | htail
  · obtain ⟨-, -, hm⟩ := Event.put.inj hhead
    exact hm
  · rw [hre] at htail
    rcases List.mem_append.mp htail with hd | hct
    · obtain ⟨d, hd'⟩ := mem_delayEventsOf p _ hd
      exact Event.noConfusion hd'
    · rcases List.mem_append.mp hct with hc | hterm
      · obtain ⟨r, hr⟩ := hcalls _ hc
        exact Event.noConfusion hr
      · obtain ⟨t', j, hj⟩ := hterms _ hterm
        obtain ⟨-, -, hm⟩ := Event.put.inj hj
        exact hm

lemma raceEvents_no_sleep (config : SagaApiConfig) (env : Env)
    (p : RestApiPayload) :
    ∀ e ∈ raceEvents config env p, Event.isSleep e = false := by
  obtain ⟨calls, terms, hre, hcalls, hlen, hterms, hnil⟩ :=
    raceEvents_spec config env p
  intro e he
  rw [hre] at he
  rcases List.mem_append.mp he with hc | hterm
  · obtain ⟨r, hr⟩ := hcalls _ hc
    simp [hr, Event.isSleep]
  · obtain ⟨t, j, hj⟩ := hterms _ hterm
    simp [hj, Event.isSleep]

/-! ## Concrete fixtures used by the witnesses -/

def typesW : ActionTypes :=
  { request := "REQ", success := "SUCC", failure := "FAIL" }

def pW : RestApiPayload :=
  { types := typesW, meta := some (Json.str "m"), endpoint := "/login"
    body := some "b", method := "POST", delay := none, server := none }

def cfgW : SagaApiConfig :=
  { baseUrl := "http://h", getToken := none, debug := false }

def reqW : HttpRequest :=
  { url := "http://h/api/login", method := "POST"
    headers := [("Accept", "application/json"),
                ("Content-Type", "application/json")]
    body := some "b" }

/-! ## Claim C2 -/

/-- C2: when the call settles before the timeout and the body parses,
the worker's trace is exactly the Request action, the optional delay,
the network call, and one terminal action: Failure with the parsed body
when the status is at least 400, Success with the parsed body
otherwise. -/
theorem c2_settled_status_selects_terminal
    (config : SagaApiConfig) (env : Env) (p : RestApiPayload)
    (req : HttpRequest) (status : Nat) (j : Json)
    (hreq : makeApiRequest config (argsOf p) = Except.ok req)
    (hres : env.fetch = FetchOutcome.respond status (Except.ok j)) :
    callRestApi config env p =
      Event.put p.types.request none p.meta ::
        (delayEventsOf p ++
          [Event.netCall req,
           if 400 ≤ status then Event.put p.types.failure (some j) p.meta
           else Event.put p.types.success (some j) p.meta]) := by
  by_cases hs : 400 ≤ status <;>
    simp [callRestApi, raceEvents, hreq, hres, hs]

/-- Witness for C2: a settled 200 response with body `5` produces the
Success trace. -/
theorem c2_witness :
    callRestApi cfgW
      { tokenBeatsTimeout := false
        fetch := FetchOutcome.respond 200 (Except.ok (Json.num 5)) } pW =
      Event.put pW.types.request none pW.meta ::
        (delayEventsOf pW ++
          [Event.netCall reqW,
           if 400 ≤ 200 then Event.put pW.types.failure (some (Json.num 5)) pW.meta
           else Event.put pW.types.success (some (Json.num 5)) pW.meta]) :=
  c2_settled_status_selects_terminal cfgW
    { tokenBeatsTimeout := false
      fetch := FetchOutcome.respond 200 (Except.ok (Json.num 5)) } pW
    reqW 200 (Json.num 5) rfl rfl

/-! ## Claim C3 -/

/-- C3: when the timeout wins the race, the worker dispatches no
payload-carrying action at all — neither Success nor Failure ever
appears in the invocation's trace. -/
theorem c3_timeout_emits_no_terminal
    (config : SagaApiConfig) (env : Env) (p : RestApiPayload)
    (h : timeoutWins config env p) :
    ∀ t j m, Event.put t (some j) m ∉ callRestApi config env p := by
  obtain ⟨calls, terms, hre, hcalls, hlen, hterms, hnil⟩ :=
    raceEvents_spec config env p
  have hterms_nil : terms = [] := hnil.mpr h
  intro t j m hmem
  rcases List.mem_cons.mp hmem with hhead | htail
  · obtain ⟨-, hpl, -⟩ := Event.put.inj hhead
    exact Option.noConfusion hpl
  · rw [hre, hterms_nil] at htail
    rcases List.mem_append.mp htail with hd | hct
    · obtain ⟨d, hd'⟩ := mem_delayEventsOf p _ hd
      exact Event.noConfusion hd'
    · rcases List.mem_append.mp hct with hc | hterm
      · obtain ⟨r, hr⟩ := hcalls _ hc
        exact Event.noConfusion hr
      · simp at hterm

/-- Witness for C3: with the fetch racing into the timeout, no Success
action with payload appears in the trace. -/
theorem c3_witness :
    Event.put "SUCC" (some Json.null) none ∉
      callRestApi cfgW
        { tokenBeatsTimeout := false, fetch := FetchOutcome.timeout } pW :=
  c3_timeout_emits_no_terminal cfgW
    { tokenBeatsTimeout := false, fetch := FetchOutcome.timeout } pW
    (by rfl) "SUCC" Json.null none

/-! ## Claim C5 -/

/-- C5: a defined `delay` produces exactly one suspension, placed
immediately after the Request action and before every event of the race
(the network call included); an undefined `delay` produces no suspension
anywhere in the trace. -/
theorem c5_delay_before_race
    (config : SagaApiConfig) (env : Env) (p : RestApiPayload) :
    (∀ d, p.delay = some d →
       callRestApi config env p =
         Event.put p.types.request none p.meta ::
           Event.sleep d :: raceEvents config env p ∧
       ∀ e ∈ raceEvents config env p, Event.isSleep e = false) ∧
    (p.delay = none →
       ∀ e ∈ callRestApi config env p, Event.isSleep e = false) := by
  constructor
  · intro d hd
    refine ⟨by simp [callRestApi, delayEventsOf, hd], ?_⟩
    exact raceEvents_no_sleep config env p
  · intro hd e he
    rcases List.mem_cons.mp he with hhead | htail
    · simp [hhead, Event.isSleep]
    · rw [delayEventsOf, hd] at htail
      simp at htail
      exact raceEvents_no_sleep config env p e htail

/-- Witness for C5: a payload with `delay = 7` suspends for 7 right after
the Request action and before the race. -/
theorem c5_witness :
    callRestApi cfgW
        { tokenBeatsTimeout := false, fetch := FetchOutcome.timeout }
        { pW with delay := some 7 } =
      Event.put typesW.request none pW.meta ::
        Event.sleep 7 ::
          raceEvents cfgW
            { tokenBeatsTimeout := false, fetch := FetchOutcome.timeout }
            { pW with delay := some 7 } ∧
    ∀ e ∈ raceEvents cfgW
        { tokenBeatsTimeout := false, fetch := FetchOutcome.timeout }
        { pW with delay := some 7 }, Event.isSleep e = false :=
  (c5_delay_before_race cfgW
    { tokenBeatsTimeout := false, fetch := FetchOutcome.timeout }
    { pW with delay := some 7 }).1 7 rfl

/-- Witness for C1: the invariant instantiated at a concrete settled
invocation. -/
theorem c1_witness :
    ∃ rest,
      callRestApi cfgW
        { tokenBeatsTimeout := false
          fetch := FetchOutcome.respond 200 (Except.ok (Json.num 5)) } pW =
        Event.put pW.types.request none pW.meta :: rest ∧
      (∀ t m, Event.put t none m ∉ rest) ∧
      (rest.filter Event.isTerminalPut).length ≤ 1 ∧
      (rest.filter Event.isTerminalPut = [] ↔
        timeoutWins cfgW
          { tokenBeatsTimeout := false
            fetch := FetchOutcome.respond 200 (Except.ok (Json.num 5)) } pW) :=
  c1_request_once_then_at_most_one_terminal cfgW
    { tokenBeatsTimeout := false
      fetch := FetchOutcome.respond 200 (Except.ok (Json.num 5)) } pW

/-- Witness for C7: the meta of the Request action of a concrete trace is
the meta of the originating payload. -/
theorem c7_witness : (some (Json.str "m") : Option Json) = pW.meta :=
  c7_meta_carried_unchanged cfgW
    { tokenBeatsTimeout := false, fetch := FetchOutcome.timeout } pW
    "REQ" none (some (Json.str "m")) (List.mem_cons_self _ _)

/-! ## Claim C4 -/

/-- C4: whenever some step after the Request action throws before the
timeout — the token provider rejects, the network primitive rejects, or
`raw.json()` fails — the trace contains exactly one terminal action: the
Failure action with the empty object `{}` as payload. -/
theorem c4_throw_yields_single_empty_failure
    (config : SagaApiConfig) (env : Env) (p : RestApiPayload)
    (h : throwsBeforeTimeout config env p) :
    (callRestApi config env p).filter Event.isTerminalPut =
      [emptyFailure p] := by
  unfold throwsBeforeTimeout at h
  cases hm : makeApiRequest config (argsOf p) with
  | error err =>
      rw [hm] at h
      cases hd : p.delay <;>
        simp [callRestApi, raceEvents, delayEventsOf, hm, h, hd,
          Event.isTerminalPut, emptyFailure]
  | ok req =>
      rw [hm] at h
      rcases h with hf | ⟨status, hf⟩ <;>
        cases hd : p.delay <;>
          simp [callRestApi, raceEvents, delayEventsOf, hm, hf, hd,
            Event.isTerminalPut, emptyFailure]

/-- Witness for C4: a rejecting network primitive produces exactly the
empty-payload Failure as terminal action. -/
theorem c4_witness :
    (callRestApi cfgW
        { tokenBeatsTimeout := false, fetch := FetchOutcome.reject }
        pW).filter Event.isTerminalPut = [emptyFailure pW] :=
  c4_throw_yields_single_empty_failure cfgW
    { tokenBeatsTimeout := false, fetch := FetchOutcome.reject } pW
    (Or.inl rfl)

/-! ## Claim C6 -/

/-- C6: in every request that `makeApiRequest` builds, the
`x-access-token` header carries value `v` exactly when the configured
token provider resolved to `v`; with no provider, or a provider
resolving to `undefined`, no token header exists.  A rejecting provider
prevents the request from being built at all, so the rejection reaches
the general failure path. -/
theorem c6_token_header_iff_resolved
    (config : SagaApiConfig) (args : ApiArgs) :
    (∀ req, makeApiRequest config args = Except.ok req →
       ∀ v, (("x-access-token", v) ∈ req.headers ↔
         config.getToken = some (Except.ok (some v)))) ∧
    (config.getToken = some (Except.error ()) →
       makeApiRequest config args = Except.error ()) := by
  constructor
  · intro req hreq v
    cases hg : config.getToken with
    | none =>
        simp [makeApiRequest, tokenResult, hg] at hreq
        simp [← hreq, requestHeaders]
    | some r =>
        cases r with
        | error e => simp [makeApiRequest, tokenResult, hg] at hreq
        | ok t =>
            cases t with
            | none =>
                simp [makeApiRequest, tokenResult, hg] at hreq
                simp [← hreq, requestHeaders]
            | some u =>
                simp [makeApiRequest, tokenResult, hg] at hreq
                simp [← hreq, requestHeaders, eq_comm]
  · intro hg
    simp [makeApiRequest, tokenResult, hg]

def cfgTok : SagaApiConfig :=
  { baseUrl := "http://h", getToken := some (Except.ok (some "tok"))
    debug := false }

def reqTok : HttpRequest :=
  { url := "http://h/api/login", method := "POST"
    headers := [("x-access-token", "tok"),
                ("Accept", "application/json"),
                ("Content-Type", "application/json")]
    body := some "b" }

/-- Witness for C6: with a provider resolving to `"tok"`, the built
request carries the token header exactly because of that resolution. -/
theorem c6_witness :
    ("x-access-token", "tok") ∈ reqTok.headers ↔
      cfgTok.getToken = some (Except.ok (some "tok")) :=
  (c6_token_header_iff_resolved cfgTok (argsOf pW)).1 reqTok rfl "tok"

/-! ## Claim C8 -/

def loginTypes : ActionTypes :=
  { request := "LOGIN_REQ", success := "LOGIN_SUCC", failure := "LOGIN_FAIL" }

/-- The scenario invocation: POST /login with the credentials body. -/
def loginPayload : RestApiPayload :=
  { types := loginTypes, meta := none, endpoint := "/login"
    body := some "\x7b\"username\":\"a\",\"password\":\"b\"\x7d"
    method := "POST", delay := none, server := none }

def cfg8 : SagaApiConfig :=
  { baseUrl := "http://stub", getToken := none, debug := false }

def req8 : HttpRequest :=
  { url := "http://stub/api/login", method := "POST"
    headers := [("Accept", "application/json"),
                ("Content-Type", "application/json")]
    body := loginPayload.body }

/-- C8: the POST /login invocation against a stub answering 200 with
`{score:5}` traces Request, the network call, then Success with payload
`{score:5}`; against a stub answering 401 with `{}` it traces Request,
the network call, then Failure with payload `{}`. -/
theorem c8_login_scenarios :
    callRestApi cfg8
        { tokenBeatsTimeout := false
          fetch := FetchOutcome.respond 200
            (Except.ok (Json.obj [("score", Json.num 5)])) } loginPayload =
      [Event.put "LOGIN_REQ" none none,
       Event.netCall req8,
       Event.put "LOGIN_SUCC" (some (Json.obj [("score", Json.num 5)])) none] ∧
    callRestApi cfg8
        { tokenBeatsTimeout := false
          fetch := FetchOutcome.respond 401 (Except.ok (Json.obj [])) }
        loginPayload =
      [Event.put "LOGIN_REQ" none none,
       Event.netCall req8,
       Event.put "LOGIN_FAIL" (some (Json.obj [])) none] :=
  ⟨rfl, rfl⟩

/-! ## Claim C9 -/

/-- The URL rule as claim C9 words it: the server override is used
whenever it is provided, otherwise the configured base URL; compared
below against the code's `requestUrl`. -/
def claimedRequestUrl (config : SagaApiConfig) (server : Option String)
    (endpoint : String) : String :=
  (match server with
    | some s => s
    | none => config.baseUrl) ++ "/api" ++ stripTrailingSlash endpoint

def cfg9 : SagaApiConfig :=
  { baseUrl := "http://base", getToken := none, debug := false }

def args9 : ApiArgs :=
  { method := "GET", endpoint := "/x", server := some "", body := none }

def req9 : HttpRequest :=
  { url := "http://base/api/x", method := "GET"
    headers := [("Accept", "application/json"),
                ("Content-Type", "application/json")]
    body := none }

/-- Counterexample to C9 as stated: with an empty-string server override
(provided, but falsy in JavaScript), the code falls back to the base
URL, so the URL handed to the network primitive differs from the
claimed one. -/
theorem c9_counterexample :
    makeApiRequest cfg9 args9 = Except.ok req9 ∧
    req9.url ≠ claimedRequestUrl cfg9 args9.server args9.endpoint :=
  ⟨rfl, by decide⟩

lemma stripTrailingSlash_concat (e : String) :
    stripTrailingSlash (e ++ "/") = e := by
  rcases e with ⟨l⟩
  show stripTrailingSlash (String.mk (l ++ ['/'])) = String.mk l
  simp [stripTrailingSlash, List.getLast?_concat, List.dropLast_concat]

/-- C9 amended: the URL is the server override when it is provided and
non-empty, otherwise the base URL, concatenated with `/api` and the
endpoint with a single trailing `/` removed if present; a base URL
already ending in `/api` therefore yields `/api/api`. -/
theorem c9_amended_url
    (config : SagaApiConfig) (args : ApiArgs) (req : HttpRequest)
    (h : makeApiRequest config args = Except.ok req) :
    (∀ s, args.server = some s → s ≠ "" →
       req.url = s ++ "/api" ++ stripTrailingSlash args.endpoint) ∧
    (args.server = none ∨ args.server = some "" →
       req.url = config.baseUrl ++ "/api" ++
         stripTrailingSlash args.endpoint) ∧
    (∀ pre, args.server = none → config.baseUrl = pre ++ "/api" →
       req.url = pre ++ "/api/api" ++ stripTrailingSlash args.endpoint) ∧
    (∀ e, stripTrailingSlash (e ++ "/") = e) := by
  have hurl : req.url = requestUrl config args.server args.endpoint := by
    cases ht : tokenResult config with
    | error e => simp [makeApiRequest, ht] at h
    | ok tok =>
        simp [makeApiRequest, ht] at h
        rw [← h]
  refine ⟨?_, ?_, ?_, stripTrailingSlash_concat⟩
  · intro s hs hne
    simp [hurl, requestUrl, hs, hne]
  · rintro (hs | hs) <;> simp [hurl, requestUrl, hs]
  · intro pre hs hbase
    have h4 : ("/api" ++ "/api" : String) = "/api/api" := rfl
    calc req.url
        = (pre ++ "/api") ++ "/api" ++ stripTrailingSlash args.endpoint := by
          simp [hurl, requestUrl, hs, hbase]
      _ = (pre ++ ("/api" ++ "/api")) ++ stripTrailingSlash args.endpoint := by
          rw [String.append_assoc pre "/api" "/api"]
      _ = pre ++ "/api/api" ++ stripTrailingSlash args.endpoint := by
          rw [h4]

def cfgA : SagaApiConfig :=
  { baseUrl := "http://h/api", getToken := none, debug := false }

def argsA : ApiArgs :=
  { method := "GET", endpoint := "/x", server := none, body := none }

def reqA : HttpRequest :=
  { url := "http://h/api/api/x", method := "GET"
    headers := [("Accept", "application/json"),
                ("Content-Type", "application/json")]
    body := none }

/-- Witness for the amended C9: a base URL ending in `/api` produces a
URL containing `/api/api`. -/
theorem c9_witness :
    reqA.url = "http://h" ++ "/api/api" ++ stripTrailingSlash argsA.endpoint :=
  (c9_amended_url cfgA argsA reqA rfl).2.2.1 "http://h" rfl rfl

/-! ## Claim C10 -/

/-- C10: every request built by `makeApiRequest` carries the two fixed
JSON headers, and every header it carries is one of `Accept`,
`Content-Type` or `x-access-token`, whatever the method, body or
configuration. -/
theorem c10_headers_fixed_json
    (config : SagaApiConfig) (args : ApiArgs) (req : HttpRequest)
    (h : makeApiRequest config args = Except.ok req) :
    ("Accept", "application/json") ∈ req.headers ∧
    ("Content-Type", "application/json") ∈ req.headers ∧
    ∀ hd ∈ req.headers,
      hd.1 = "Accept" ∨ hd.1 = "Content-Type" ∨ hd.1 = "x-access-token" := by
  cases ht : tokenResult config with
  | error e => simp [makeApiRequest, ht] at h
  | ok tok =>
      simp [makeApiRequest, ht] at h
      cases tok with
      | none =>
          refine ⟨by simp [← h, requestHeaders],
            by simp [← h, requestHeaders], ?_⟩
          intro hd hmem
          rw [← h] at hmem
          simp [requestHeaders] at hmem
          rcases hmem with h1 | h1 <;> simp [h1]
      | some u =>
          refine ⟨by simp [← h, requestHeaders],
            by simp [← h, requestHeaders], ?_⟩
          intro hd hmem
          rw [← h] at hmem
          simp [requestHeaders] at hmem
          rcases hmem with h1 | h1 | h1 <;> simp [h1]

/-- Witness for C10: the concrete tokened request carries the Accept
header. -/
theorem c10_witness : ("Accept", "application/json") ∈ reqTok.headers :=
  (c10_headers_fixed_json cfgTok (argsOf pW) reqTok rfl).1
